import Mathlib

/-!
Verification of the verify_student client views.

This file is a shallow embedding of two JavaScript source files:

* lms/static/js/verify_student/views/step_view.js — the Backbone base view
  StepView: a constructor copying the option object into instance fields,
  render() (which lazily issues a GET of the template and otherwise writes
  the cached HTML), handleResponse() (the ajax success handler that merges
  the context, renders the template, caches and writes the result, and
  invokes postRender()), postRender() (a no-op hook), and nextStep()
  (which triggers the Backbone event named next-step).

* lms/static/js/verify_student/pay_and_verify.js — the page entry point
  that reads data- attributes off the container element and assembles the
  option object handed to the PayAndVerifyView constructor.

Modelling conventions.

JavaScript objects used as string maps become association lists
List (String × String), read with jsGet (first match wins, as a JS
object has at most one entry per key) and written with setKey (overwrite
in place, else append), mirroring property assignment; _.extend is a fold
of setKey over the source object's entries.

The falsy test !this.renderedHtml is isFalsy: undefined (none) and the
empty string are falsy, every other string is truthy; `x || d` on strings
is jsOrStr.

The jQuery call $( this.el ).html( v ) is modelled as writing the string
v to the element, the empty string when v is undefined (the spec describes
this path as setting empty content).  The $.ajax call registers only a
success handler — the source carries a TODO for the failure condition —
so a failed fetch invokes nothing on the view.

The underscore template engine _.template( text, context ) is external to
the repository; the step-view operations take it as a parameter
tmpl : String → List (String × String) → String.  plainTemplate models its
behaviour on template text containing no interpolation delimiters, which
underscore returns verbatim.

The event loop is a small-step machine: a Sys holds the view state, the
queue of in-flight fetches, and the trace of observable events; the
actions are a render() call, the arrival of a successful response, and a
fetch failure.
-/

namespace VerifyStudent

/-- Observable effects of the step view on its environment: a network GET
of a template URL, a write of an HTML string into the view's root
element, and an invocation of the postRender() hook. -/
inductive Event where
  | fetchIssued : String → Event
  | elSet : String → Event
  | postRender : Event
  deriving DecidableEq

/-- The fields of a StepView instance: the four configuration fields
copied from the option object by the constructor, the cached rendered
HTML (this.renderedHtml, undefined until handleResponse runs), and the
content of the view's root element. -/
structure ViewState where
  templateUrl : String
  stepData : List (String × String)
  nextStepNum : String
  nextStepTitle : String
  renderedHtml : Option String
  elHtml : String
  deriving DecidableEq

/-- The option object passed to the StepView constructor; each field may
be absent (undefined). -/
structure InitArgs where
  templateUrl : Option String
  stepData : Option (List (String × String))
  nextStepNum : Option String
  nextStepTitle : Option String
  deriving DecidableEq

/-- JavaScript `x || d` on an optional string: undefined and the empty
string are falsy and yield the default. -/
def jsOrStr : Option String → String → String
  | none, d => d
  | some s, d => if s = "" then d else s

/-- The StepView constructor (step_view.js lines 27-38): copies each
option into an instance field, defaulting to the empty string (or the
empty object for stepData; any object, even empty, is truthy in JS).  The
cached HTML starts undefined and the root element starts empty.  The
constructor's _.mixin call mutates a global library namespace and touches
no view state, so it has no counterpart here. -/
def mkStepView (o : InitArgs) : ViewState :=
  { templateUrl := jsOrStr o.templateUrl ""
    stepData := o.stepData.getD []
    nextStepNum := jsOrStr o.nextStepNum ""
    nextStepTitle := jsOrStr o.nextStepTitle ""
    renderedHtml := none
    elHtml := "" }

/-- JavaScript falsy test on this.renderedHtml: undefined and the empty
string are falsy. -/
def isFalsy : Option String → Bool
  | none => true
  | some s => s == ""

/-- Property read obj[key] on a JS object modelled as an association
list; a JS object holds at most one entry per key, and the first match
is returned. -/
def jsGet : List (String × String) → String → Option String
  | [], _ => none
  | (k, v) :: rest, key => if key = k then some v else jsGet rest key

/-- Property write obj[k] = v: overwrite the entry for k in place when
present, append otherwise. -/
def setKey : List (String × String) → String → String → List (String × String)
  | [], k, v => [(k, v)]
  | (k', v') :: rest, k, v =>
      if k = k' then (k, v) :: rest else (k', v') :: setKey rest k v

/-- _.extend( dest, src ): copy every entry of src into dest, left to
right, overwriting on key conflict. -/
def extendObj (dest src : List (String × String)) : List (String × String) :=
  src.foldl (fun d p => setKey d p.1 p.2) dest

/-- The context built by handleResponse (step_view.js lines 58-65):
start from the object holding nextStepNum and nextStepTitle, then
_.extend the step-specific data over it. -/
def templateContext (v : ViewState) : List (String × String) :=
  extendObj [("nextStepNum", v.nextStepNum), ("nextStepTitle", v.nextStepTitle)] v.stepData

/-- handleResponse( data ) (step_view.js lines 56-71): build the merged
context, render the template with it, cache the result in
this.renderedHtml, write it into the root element, and invoke
postRender().  Returns the new view state and the events of this
synchronous handler run, in order. -/
def handleResponse (tmpl : String → List (String × String) → String)
    (v : ViewState) (data : String) : ViewState × List Event :=
  let html := tmpl data (templateContext v)
  ({ v with renderedHtml := some html, elHtml := html },
   [Event.elSet html, Event.postRender])

/-- The event-loop state: the view, the queue of in-flight template
fetches (URLs, oldest first), and the trace of observable events so
far. -/
structure Sys where
  view : ViewState
  pending : List String
  trace : List Event
  deriving DecidableEq

/-- render() (step_view.js lines 40-54): when the cached HTML is falsy
and the template URL is truthy, issue a GET of the template URL (the
response arrives later as a separate action); otherwise synchronously
write the cached HTML (empty when undefined) into the root element and
invoke postRender(). -/
def renderView (s : Sys) : Sys :=
  if isFalsy s.view.renderedHtml ∧ s.view.templateUrl ≠ "" then
    { s with pending := s.pending ++ [s.view.templateUrl]
             trace := s.trace ++ [Event.fetchIssued s.view.templateUrl] }
  else
    { s with view := { s.view with elHtml := s.view.renderedHtml.getD "" }
             trace := s.trace ++ [Event.elSet (s.view.renderedHtml.getD ""),
                                  Event.postRender] }

/-- Arrival of a successful response to the oldest in-flight fetch: run
handleResponse on the response body.  With nothing in flight this action
cannot occur and is a no-op. -/
def respond (tmpl : String → List (String × String) → String)
    (s : Sys) (data : String) : Sys :=
  match s.pending with
  | [] => s
  | _ :: rest =>
      let p := handleResponse tmpl s.view data
      { view := p.1, pending := rest, trace := s.trace ++ p.2 }

/-- Failure of the oldest in-flight fetch: the $.ajax call in render()
registers only a success handler (the failure condition is an
acknowledged TODO in the source), so nothing runs against the view. -/
def failFetch (s : Sys) : Sys :=
  match s.pending with
  | [] => s
  | _ :: rest => { s with pending := rest }

/-- One event-loop turn: a render() call, a successful response, or a
fetch failure. -/
inductive Act where
  | render : Act
  | respond : String → Act
  | fail : Act
  deriving DecidableEq

/-- Dispatch one action. -/
def step (tmpl : String → List (String × String) → String) (s : Sys) : Act → Sys
  | Act.render => renderView s
  | Act.respond data => respond tmpl s data
  | Act.fail => failFetch s

/-- Run a schedule of actions from a starting state. -/
def run (tmpl : String → List (String × String) → String)
    (s : Sys) (acts : List Act) : Sys :=
  acts.foldl (step tmpl) s

/-- The template engine's behaviour on template text containing no
interpolation delimiters: underscore returns such text unchanged, in
particular the empty template renders to the empty string. -/
def plainTemplate : String → List (String × String) → String :=
  fun text _ => text

/-- nextStep() dispatch target: a listener registered on the view's
Backbone event bus, identified by an id and the event name it listens
for. -/
structure Listener where
  id : Nat
  event : String
  deriving DecidableEq

/-- Backbone trigger( name ): deliver one call, in registration order,
to every listener registered for the event name; each call carries the
event name and the (here empty) argument list. -/
def trigger (ls : List Listener) (name : String) (args : List String) :
    List (Nat × String × List String) :=
  (ls.filter (fun l => l.event == name)).map (fun l => (l.id, name, args))

/-- nextStep() (step_view.js lines 78-80): this.trigger('next-step')
with no arguments; the view state is untouched. -/
def nextStep (v : ViewState) (ls : List Listener) :
    ViewState × List (Nat × String × List String) :=
  (v, trigger ls "next-step" [])

/-- JavaScript s.split( sep ) for a single-character separator, on the
character list: splitting the empty string yields the one-element list
holding the empty string. -/
def splitChars (sep : Char) : List Char → List (List Char)
  | [] => [[]]
  | c :: cs =>
      match splitChars sep cs with
      | [] => [[]]
      | w :: ws => if c = sep then [] :: w :: ws else (c :: w) :: ws

/-- JavaScript s.split( sep ) for a single-character separator. -/
def jsSplit (s : String) (sep : Char) : List String :=
  (splitChars sep s.toList).map (fun cs => String.mk cs)

/-- The intro-step slice of the bootstrap's stepInfo
(pay_and_verify.js lines 30-34). -/
structure IntroStepInfo where
  introTitle : Option String
  introMsg : Option String
  requirements : Option String
  deriving DecidableEq

/-- The make-payment-step slice (pay_and_verify.js lines 35-41). -/
structure MakePaymentStepInfo where
  courseKey : Option String
  minPrice : Option String
  suggestedPrices : List String
  currency : Option String
  purchaseEndpoint : Option String
  deriving DecidableEq

/-- The payment-confirmation-step slice (pay_and_verify.js lines
42-46). -/
structure PaymentConfirmationStepInfo where
  courseName : Option String
  courseStartDate : Option String
  coursewareUrl : Option String
  deriving DecidableEq

/-- The review-photos-step slice (pay_and_verify.js lines 47-49). -/
structure ReviewPhotosStepInfo where
  fullName : Option String
  deriving DecidableEq

/-- The stepInfo mapping: one slice per step identifier of the fixed
closed set. -/
structure StepInfo where
  introStep : IntroStepInfo
  makePaymentStep : MakePaymentStepInfo
  paymentConfirmationStep : PaymentConfirmationStepInfo
  reviewPhotosStep : ReviewPhotosStepInfo
  deriving DecidableEq

/-- The option object handed to the PayAndVerifyView constructor
(pay_and_verify.js lines 27-52). -/
structure PayAndVerifyArgs where
  displaySteps : Option String
  currentStep : Option String
  stepInfo : StepInfo
  deriving DecidableEq

/-- el.data( key ): read the attribute named data-key off the container
element, modelled as an association list of attribute names to string
values; undefined when absent. -/
def elData (el : List (String × String)) (key : String) : Option String :=
  jsGet el ("data-" ++ key)

/-- The bootstrap (pay_and_verify.js lines 27-52): read the enumerated
data- attributes off the container and assemble the option object.  The
only derived value is suggestedPrices, the comma-split of the raw
attribute value defaulted to the empty string. -/
def payAndVerifyBootstrap (el : List (String × String)) : PayAndVerifyArgs :=
  { displaySteps := elData el "display-steps"
    currentStep := elData el "current-step"
    stepInfo :=
      { introStep :=
          { introTitle := elData el "intro-title"
            introMsg := elData el "intro-msg"
            requirements := elData el "requirements" }
        makePaymentStep :=
          { courseKey := elData el "course-key"
            minPrice := elData el "course-mode-min-price"
            suggestedPrices :=
              jsSplit (jsOrStr (elData el "course-mode-suggested-prices") "") ','
            currency := elData el "course-mode-currency"
            purchaseEndpoint := elData el "purchase-endpoint" }
        paymentConfirmationStep :=
          { courseName := elData el "course-name"
            courseStartDate := elData el "course-start-date"
            coursewareUrl := elData el "courseware-url" }
        reviewPhotosStep :=
          { fullName := elData el "full-name" } } }

/-- The spec's description of the context merge: step-specific data
overlaid on top of the pair nextStepNum, nextStepTitle, step-specific
keys winning on conflict. -/
def specContext (v : ViewState) (k : String) : Option String :=
  match jsGet v.stepData k with
  | some val => some val
  | none => jsGet [("nextStepNum", v.nextStepNum), ("nextStepTitle", v.nextStepTitle)] k

/-- Reading a key after a property write: the written key returns the
written value, every other key is unaffected. -/
lemma jsGet_setKey (d : List (String × String)) (k v k' : String) :
    jsGet (setKey d k v) k' = if k' = k then some v else jsGet d k' := by
  induction d with
  | nil => simp [setKey, jsGet]
  | cons p rest ih =>
      obtain ⟨a, b⟩ := p
      by_cases hk : k = a
      · subst hk
        simp only [setKey, if_pos rfl, jsGet]
        by_cases h' : k' = k <;> simp [h']
      · simp only [setKey, if_neg hk, jsGet, ih]
        by_cases h1 : k' = a <;> by_cases h2 : k' = k <;> simp_all

/-- A key that occurs nowhere in a JS object reads as undefined. -/
lemma jsGet_eq_none_of_not_mem (l : List (String × String)) (k : String)
    (h : k ∉ l.map Prod.fst) : jsGet l k = none := by
  induction l with
  | nil => rfl
  | cons p rest ih =>
      obtain ⟨a, b⟩ := p
      simp only [List.map_cons, List.mem_cons] at h
      push_neg at h
      simp [jsGet, h.1, ih h.2]

/-- Reading a key out of an _.extend result: an entry of the source
object wins, otherwise the destination is consulted (the source, a JS
object, holds each key at most once). -/
lemma jsGet_extendObj (src : List (String × String)) :
    ∀ d k, (src.map Prod.fst).Nodup →
      jsGet (extendObj d src) k =
        match jsGet src k with
        | some val => some val
        | none => jsGet d k := by
  induction src with
  | nil => intro d k _; simp [extendObj, jsGet]
  | cons p rest ih =>
      intro d k hnd
      obtain ⟨a, b⟩ := p
      simp only [List.map_cons, List.nodup_cons] at hnd
      have hstep : extendObj d ((a, b) :: rest) = extendObj (setKey d a b) rest := rfl
      rw [hstep, ih _ k hnd.2]
      by_cases hk : k = a
      · subst hk
        have hrest : jsGet rest k = none := jsGet_eq_none_of_not_mem _ _ hnd.1
        simp [jsGet, hrest, jsGet_setKey]
      · cases hr : jsGet rest k <;> simp [jsGet, hk, jsGet_setKey, hr]

/-- Helper: one event-loop turn never changes the four configuration
fields copied in by the constructor. -/
lemma step_preserves_config (tmpl : String → List (String × String) → String)
    (s : Sys) (a : Act) :
    (step tmpl s a).view.templateUrl = s.view.templateUrl ∧
    (step tmpl s a).view.stepData = s.view.stepData ∧
    (step tmpl s a).view.nextStepNum = s.view.nextStepNum ∧
    (step tmpl s a).view.nextStepTitle = s.view.nextStepTitle := by
  cases a with
  | render =>
      simp only [step, renderView]
      split <;> simp
  | respond data =>
      simp only [step, respond]
      split <;> simp [handleResponse]
  | fail =>
      simp only [step, failFetch]
      split <;> simp

/-- Helper: no schedule of event-loop turns changes the configuration
fields. -/
lemma run_preserves_config (tmpl : String → List (String × String) → String)
    (acts : List Act) :
    ∀ s : Sys,
      (run tmpl s acts).view.templateUrl = s.view.templateUrl ∧
      (run tmpl s acts).view.stepData = s.view.stepData ∧
      (run tmpl s acts).view.nextStepNum = s.view.nextStepNum ∧
      (run tmpl s acts).view.nextStepTitle = s.view.nextStepTitle := by
  induction acts with
  | nil => exact fun s => ⟨rfl, rfl, rfl, rfl⟩
  | cons a rest ih =>
      intro s
      have h1 := step_preserves_config tmpl s a
      have h2 := ih (step tmpl s a)
      exact ⟨h2.1.trans h1.1, h2.2.1.trans h1.2.1,
        h2.2.2.1.trans h1.2.2.1, h2.2.2.2.trans h1.2.2.2⟩

/-- The ordering discipline of the post-render hook: a trace in which a
postRender event never opens the trace and is always immediately
preceded by a write of the root element's content. -/
def writeThenHook : Event → Event → Prop :=
  fun a b => b = Event.postRender → ∃ h, a = Event.elSet h

/-- A trace respecting the hook-after-write discipline. -/
def hookGuarded (es : List Event) : Prop :=
  List.Chain' writeThenHook es ∧ ∀ e ∈ es.head?, e ≠ Event.postRender

lemma hookGuarded_nil : hookGuarded [] :=
  ⟨trivial, by intro e he; simp at he⟩

lemma hookGuarded_append {es fs : List Event}
    (h1 : hookGuarded es) (h2 : hookGuarded fs) : hookGuarded (es ++ fs) := by
  constructor
  · rw [List.chain'_append]
    exact ⟨h1.1, h2.1, fun x _ y hy hpost => absurd hpost (h2.2 y hy)⟩
  · intro e he
    cases es with
    | nil => exact h2.2 e (by simpa using he)
    | cons a as =>
        have ha : a = e := by simpa using he
        subst ha
        exact h1.2 a (by simp)

lemma hookGuarded_fetchSeg (u : String) : hookGuarded [Event.fetchIssued u] := by
  constructor
  · simp
  · intro e he
    simp at he
    subst he
    simp

lemma hookGuarded_writeSeg (h : String) :
    hookGuarded [Event.elSet h, Event.postRender] := by
  constructor
  · exact List.chain'_cons.mpr ⟨fun _ => ⟨h, rfl⟩, by simp⟩
  · intro e he
    simp at he
    subst he
    simp

/-- Helper: every event-loop turn appends a hook-disciplined segment. -/
lemma hookGuarded_step (tmpl : String → List (String × String) → String)
    (s : Sys) (a : Act) (hg : hookGuarded s.trace) :
    hookGuarded (step tmpl s a).trace := by
  cases a with
  | render =>
      simp only [step, renderView]
      split
      · exact hookGuarded_append hg (hookGuarded_fetchSeg _)
      · exact hookGuarded_append hg (hookGuarded_writeSeg _)
  | respond data =>
      simp only [step, respond]
      split
      · exact hg
      · exact hookGuarded_append hg (hookGuarded_writeSeg _)
  | fail =>
      simp only [step, failFetch]
      split
      · exact hg
      · exact hg

/-- Helper: the discipline holds along every schedule. -/
lemma hookGuarded_run (tmpl : String → List (String × String) → String)
    (acts : List Act) :
    ∀ s : Sys, hookGuarded s.trace → hookGuarded (run tmpl s acts).trace := by
  induction acts with
  | nil => exact fun _ h => h
  | cons a rest ih =>
      exact fun s h => ih (step tmpl s a) (hookGuarded_step tmpl s a h)

/-- Helper: a call delivered by trigger names the id of one of the
registered listeners. -/
lemma mem_trigger_id (ls : List Listener) (name : String) (args : List String)
    (c : Nat × String × List String) (hc : c ∈ trigger ls name args) :
    c.1 ∈ ls.map Listener.id := by
  simp only [trigger, List.mem_map, List.mem_filter] at hc
  obtain ⟨l, ⟨hl, _⟩, rfl⟩ := hc
  exact List.mem_map.mpr ⟨l, hl, rfl⟩

/-- Helper: with distinct listener ids, a listener registered for
next-step receives exactly one call, carrying no arguments. -/
lemma trigger_filter_singleton (ls : List Listener) (l : Listener)
    (hnd : (ls.map Listener.id).Nodup) (hmem : l ∈ ls)
    (hev : l.event = "next-step") :
    (trigger ls "next-step" []).filter (fun c => c.1 == l.id) =
      [(l.id, "next-step", [])] := by
  induction ls with
  | nil => cases hmem
  | cons a as ih =>
      simp only [List.map_cons, List.nodup_cons] at hnd
      rcases List.mem_cons.mp hmem with rfl | hmas
      · have hfil :
            (trigger as "next-step" []).filter (fun c => c.1 == l.id) = [] := by
          refine List.filter_eq_nil_iff.mpr ?_
          intro c hc
          have hmm := mem_trigger_id as "next-step" [] c hc
          simp only [beq_iff_eq]
          intro heq
          rw [heq] at hmm
          exact hnd.1 hmm
        simpa [trigger, List.filter_cons, hev] using hfil
      · have hne : a.id ≠ l.id := fun h =>
          hnd.1 (h ▸ List.mem_map.mpr ⟨l, hmas, rfl⟩)
        have hrec := ih hnd.2 hmas
        by_cases hae : a.event = "next-step"
        · simpa [trigger, List.filter_cons, hae, hne] using hrec
        · simpa [trigger, List.filter_cons, hae] using hrec

/-- C1 counterexample: a StepView whose fetch-based render() has
completed and cached its result can still re-fetch.  With template URL u
and a response body rendering to the empty string, the cache holds the
empty string after the first render/response pair, yet the next render()
call issues a second fetch of u (and invokes no postRender()), because
the guard !this.renderedHtml treats the cached empty string as absent. -/
theorem C1_counterexample :
    (run plainTemplate ⟨mkStepView ⟨some "u", none, none, none⟩, [], []⟩
        [Act.render, Act.respond ""]).view.renderedHtml = some "" ∧
    (run plainTemplate ⟨mkStepView ⟨some "u", none, none, none⟩, [], []⟩
        [Act.render, Act.respond "", Act.render]).trace =
      [Event.fetchIssued "u", Event.elSet "", Event.postRender,
       Event.fetchIssued "u"] ∧
    (run plainTemplate ⟨mkStepView ⟨some "u", none, none, none⟩, [], []⟩
        [Act.render, Act.respond "", Act.render]).pending = ["u"] :=
  ⟨by decide, by decide, by decide⟩

/-- C1 (amended): once a fetch-based render() has cached a non-empty
HTML result, every subsequent render() call reuses the cached HTML
(writes it back into the root element), issues no network fetch, and
invokes postRender() again. -/
theorem C1_render_reuses_nonempty_cache
    (tmpl : String → List (String × String) → String) (s : Sys) (h : String)
    (hc : s.view.renderedHtml = some h) (hne : h ≠ "") :
    step tmpl s Act.render =
      ⟨{ s.view with elHtml := h }, s.pending,
        s.trace ++ [Event.elSet h, Event.postRender]⟩ := by
  simp [step, renderView, hc, isFalsy, hne]

/-- C1 witness: the amended statement at a concrete view whose cache
holds the non-empty string x. -/
theorem C1_render_reuses_nonempty_cache_witness :
    step plainTemplate ⟨⟨"u", [], "", "", some "x", ""⟩, [], []⟩ Act.render =
      ⟨⟨"u", [], "", "", some "x", "x"⟩, [],
        [Event.elSet "x", Event.postRender]⟩ :=
  C1_render_reuses_nonempty_cache plainTemplate
    ⟨⟨"u", [], "", "", some "x", ""⟩, [], []⟩ "x" rfl (by decide)

/-- C2: the bootstrap's suggestedPrices for the payment step is always
the comma-split of the raw attribute value: a present attribute value s
yields the split of s, an absent attribute (empty-string default) yields
the one-element list holding the empty string; in particular "10,25,50"
yields the three-element list "10", "25", "50". -/
theorem C2_suggestedPrices_split :
    (∀ el s, elData el "course-mode-suggested-prices" = some s →
        (payAndVerifyBootstrap el).stepInfo.makePaymentStep.suggestedPrices =
          jsSplit s ',') ∧
    (∀ el, elData el "course-mode-suggested-prices" = none →
        (payAndVerifyBootstrap el).stepInfo.makePaymentStep.suggestedPrices =
          [""]) ∧
    (payAndVerifyBootstrap
        [("data-course-mode-suggested-prices",
          "10,25,50")]).stepInfo.makePaymentStep.suggestedPrices =
      ["10", "25", "50"] ∧
    (payAndVerifyBootstrap []).stepInfo.makePaymentStep.suggestedPrices =
      [""] := by
  refine ⟨?_, ?_, by decide, by decide⟩
  · intro el s hs
    simp only [payAndVerifyBootstrap, hs, jsOrStr]
    by_cases h : s = "" <;> simp [h]
  · intro el hn
    simp only [payAndVerifyBootstrap, hn, jsOrStr]
    decide

/-- C2 witness: the present-attribute conjunct at a concrete container. -/
theorem C2_suggestedPrices_split_witness :
    (payAndVerifyBootstrap
        [("data-course-mode-suggested-prices",
          "5,9")]).stepInfo.makePaymentStep.suggestedPrices =
      jsSplit "5,9" ',' :=
  C2_suggestedPrices_split.1
    [("data-course-mode-suggested-prices", "5,9")] "5,9" (by decide)

/-- C3: a render() call on a view with no template locator and no cached
output synchronously writes empty content into the root element and
invokes postRender() exactly once, with no fetch issued and the
in-flight queue untouched. -/
theorem C3_render_without_template
    (tmpl : String → List (String × String) → String) (s : Sys)
    (hurl : s.view.templateUrl = "") (hcache : s.view.renderedHtml = none) :
    step tmpl s Act.render =
      ⟨{ s.view with elHtml := "" }, s.pending,
        s.trace ++ [Event.elSet "", Event.postRender]⟩ := by
  simp [step, renderView, hurl, hcache]

/-- C3 witness: the statement at a freshly constructed view with every
constructor option absent. -/
theorem C3_render_without_template_witness :
    step plainTemplate ⟨mkStepView ⟨none, none, none, none⟩, [], []⟩
        Act.render =
      ⟨{ mkStepView ⟨none, none, none, none⟩ with elHtml := "" }, [],
        [Event.elSet "", Event.postRender]⟩ :=
  C3_render_without_template plainTemplate
    ⟨mkStepView ⟨none, none, none, none⟩, [], []⟩ rfl rfl

/-- C6: when an in-flight template fetch fails, nothing runs against the
view: the root element's content and the cached HTML stay exactly as
they were, no event is emitted (no content write, no postRender, no
error output), and only the failed fetch leaves the in-flight queue. -/
theorem C6_fetch_failure_unhandled
    (tmpl : String → List (String × String) → String) (s : Sys)
    (u : String) (rest : List String) (hp : s.pending = u :: rest) :
    step tmpl s Act.fail = ⟨s.view, rest, s.trace⟩ := by
  simp [step, failFetch, hp]

/-- C6 witness: the statement at a view whose only in-flight fetch
fails. -/
theorem C6_fetch_failure_unhandled_witness :
    step plainTemplate ⟨mkStepView ⟨some "u", none, none, none⟩, ["u"],
        [Event.fetchIssued "u"]⟩ Act.fail =
      ⟨mkStepView ⟨some "u", none, none, none⟩, [],
        [Event.fetchIssued "u"]⟩ :=
  C6_fetch_failure_unhandled plainTemplate
    ⟨mkStepView ⟨some "u", none, none, none⟩, ["u"],
      [Event.fetchIssued "u"]⟩ "u" [] rfl

/-- C7: the bootstrap's configuration mapping holds, under each
enumerated key, exactly the container attribute's value — undefined when
the attribute is absent, with no validation — and in particular a
container with data-intro-title "Verify Your Identity" and
data-current-step "intro-step" reaches the constructor with that
introTitle under the intro step and that currentStep. -/
theorem C7_bootstrap_attribute_plumbing :
    (∀ el,
      (payAndVerifyBootstrap el).displaySteps = elData el "display-steps" ∧
      (payAndVerifyBootstrap el).currentStep = elData el "current-step" ∧
      (payAndVerifyBootstrap el).stepInfo.introStep.introTitle =
        elData el "intro-title" ∧
      (payAndVerifyBootstrap el).stepInfo.introStep.introMsg =
        elData el "intro-msg" ∧
      (payAndVerifyBootstrap el).stepInfo.introStep.requirements =
        elData el "requirements" ∧
      (payAndVerifyBootstrap el).stepInfo.makePaymentStep.courseKey =
        elData el "course-key" ∧
      (payAndVerifyBootstrap el).stepInfo.makePaymentStep.minPrice =
        elData el "course-mode-min-price" ∧
      (payAndVerifyBootstrap el).stepInfo.makePaymentStep.currency =
        elData el "course-mode-currency" ∧
      (payAndVerifyBootstrap el).stepInfo.makePaymentStep.purchaseEndpoint =
        elData el "purchase-endpoint" ∧
      (payAndVerifyBootstrap el).stepInfo.paymentConfirmationStep.courseName =
        elData el "course-name" ∧
      (payAndVerifyBootstrap el).stepInfo.paymentConfirmationStep.courseStartDate =
        elData el "course-start-date" ∧
      (payAndVerifyBootstrap el).stepInfo.paymentConfirmationStep.coursewareUrl =
        elData el "courseware-url" ∧
      (payAndVerifyBootstrap el).stepInfo.reviewPhotosStep.fullName =
        elData el "full-name") ∧
    (payAndVerifyBootstrap
        [("data-intro-title", "Verify Your Identity"),
         ("data-current-step", "intro-step")]).stepInfo.introStep.introTitle =
      some "Verify Your Identity" ∧
    (payAndVerifyBootstrap
        [("data-intro-title", "Verify Your Identity"),
         ("data-current-step", "intro-step")]).currentStep =
      some "intro-step" :=
  ⟨fun _ => ⟨rfl, rfl, rfl, rfl, rfl, rfl, rfl, rfl, rfl, rfl, rfl, rfl, rfl⟩,
   by decide, by decide⟩

/-- C9: render() is not guarded against a fetch already in flight: in
the schedule where a second render() call runs before the first
response arrives, the same template URL is fetched a second time, and
once both responses arrive postRender() has been invoked twice. -/
theorem C9_inflight_render_unguarded :
    (run plainTemplate ⟨mkStepView ⟨some "u", none, none, none⟩, [], []⟩
        [Act.render, Act.render]).pending = ["u", "u"] ∧
    (run plainTemplate ⟨mkStepView ⟨some "u", none, none, none⟩, [], []⟩
        [Act.render, Act.render]).trace.count (Event.fetchIssued "u") = 2 ∧
    (run plainTemplate ⟨mkStepView ⟨some "u", none, none, none⟩, [], []⟩
        [Act.render, Act.render, Act.respond "a",
         Act.respond "b"]).trace.count Event.postRender = 2 :=
  ⟨by decide, by decide, by decide⟩

/-- C4: the context handleResponse renders with is exactly the mapping
starting from the pair nextStepNum, nextStepTitle with every entry of
the step-specific data overlaid on top, step-specific keys winning on
conflict: every key reads the same through templateContext as through
the spec's description specContext, and a stepData entry named
nextStepNum overrides the view's own field. -/
theorem C4_context_merge (v : ViewState)
    (hnd : (v.stepData.map Prod.fst).Nodup) :
    (∀ k, jsGet (templateContext v) k = specContext v k) ∧
    (∀ val, jsGet v.stepData "nextStepNum" = some val →
      jsGet (templateContext v) "nextStepNum" = some val) := by
  have hmain : ∀ k, jsGet (templateContext v) k = specContext v k := by
    intro k
    unfold templateContext specContext
    rw [jsGet_extendObj _ _ _ hnd]
  refine ⟨hmain, fun val hv => ?_⟩
  rw [hmain "nextStepNum"]
  simp [specContext, hv]

/-- C4 witness: at a view whose stepData carries its own nextStepNum,
the merged context returns the step-specific value, overriding the
view's field. -/
theorem C4_context_merge_witness :
    jsGet (templateContext
        ⟨"", [("nextStepNum", "9"), ("a", "b")], "1", "2", none, ""⟩)
      "nextStepNum" = some "9" :=
  (C4_context_merge
      ⟨"", [("nextStepNum", "9"), ("a", "b")], "1", "2", none, ""⟩
      (by decide)).2 "9" rfl

/-- C5: along every schedule from a freshly constructed view, every
invocation of the post-render hook comes immediately after a write of
the root element's content — never first in the trace, with nothing
between the write and the hook — in the cached path and the
freshly-fetched path alike (each event-loop turn is synchronous, so the
adjacent pair admits no suspension point). -/
theorem C5_hook_follows_content_write
    (tmpl : String → List (String × String) → String) (o : InitArgs)
    (acts : List Act) :
    hookGuarded (run tmpl ⟨mkStepView o, [], []⟩ acts).trace :=
  hookGuarded_run tmpl acts ⟨mkStepView o, [], []⟩ hookGuarded_nil

/-- C8: nextStep() broadcasts the next-step signal and nothing else: the
view state is returned untouched, every delivered call carries the event
name next-step and an empty argument list, and — the registered ids
being distinct — each listener registered for next-step observes exactly
one call. -/
theorem C8_nextStep_single_signal (v : ViewState) (ls : List Listener)
    (hnd : (ls.map Listener.id).Nodup) :
    (nextStep v ls).1 = v ∧
    (∀ c ∈ (nextStep v ls).2,
      c.2.1 = "next-step" ∧ c.2.2 = ([] : List String)) ∧
    (∀ l ∈ ls, l.event = "next-step" →
      (nextStep v ls).2.filter (fun c => c.1 == l.id) =
        [(l.id, "next-step", ([] : List String))]) := by
  refine ⟨rfl, ?_, ?_⟩
  · intro c hc
    simp only [nextStep, trigger, List.mem_map, List.mem_filter] at hc
    obtain ⟨l, _, rfl⟩ := hc
    exact ⟨rfl, rfl⟩
  · intro l hl hev
    exact trigger_filter_singleton ls l hnd hl hev

/-- C8 witness: with one listener registered for next-step and one for
another event, the next-step listener observes exactly one call with no
payload. -/
theorem C8_nextStep_single_signal_witness :
    (nextStep ⟨"", [], "", "", none, ""⟩
        [⟨1, "next-step"⟩, ⟨2, "other"⟩]).2.filter (fun c => c.1 == 1) =
      [(1, "next-step", ([] : List String))] :=
  (C8_nextStep_single_signal ⟨"", [], "", "", none, ""⟩
      [⟨1, "next-step"⟩, ⟨2, "other"⟩] (by decide)).2.2
    ⟨1, "next-step"⟩ (by simp) rfl

/-- C10: no schedule of render() calls, successful responses, and fetch
failures changes the configuration fields copied in by the constructor:
after any run, templateUrl, stepData, nextStepNum and nextStepTitle are
those of the freshly constructed view (the context merge copies into a
fresh object instead of writing into stepData). -/
theorem C10_config_frame
    (tmpl : String → List (String × String) → String) (o : InitArgs)
    (acts : List Act) :
    (run tmpl ⟨mkStepView o, [], []⟩ acts).view.templateUrl =
      (mkStepView o).templateUrl ∧
    (run tmpl ⟨mkStepView o, [], []⟩ acts).view.stepData =
      (mkStepView o).stepData ∧
    (run tmpl ⟨mkStepView o, [], []⟩ acts).view.nextStepNum =
      (mkStepView o).nextStepNum ∧
    (run tmpl ⟨mkStepView o, [], []⟩ acts).view.nextStepTitle =
      (mkStepView o).nextStepTitle :=
  run_preserves_config tmpl acts ⟨mkStepView o, [], []⟩

end VerifyStudent
